import Mathlib

/-!
Verification development for the hermitage auction server (`src/main.py`).

The Python source is shallowly embedded: the SQLite store becomes a record of
lists, each endpoint handler becomes a pure function on that record, and the
itsdangerous timed serializer (a third-party library whose behaviour the spec
describes in section 4.1) is modelled as a MAC-signed value/timestamp pair.
Python `int` is embedded as `Int`; timestamps are `Nat` seconds.
-/

namespace Auction

/-! ## Session codec

Modelled from the spec: the itsdangerous `URLSafeTimedSerializer` used by
`create_session_token` / `validate_session_token` / `create_admin_session_token`
/ `validate_admin_session` is library code outside `src/`.  Per the spec it
produces an opaque cryptographically signed string embedding the value and an
issuance timestamp; `loads` verifies the signature and rejects tokens older
than `max_age`.  We model the signature as an injective keyed function `mac`
over the (value, timestamp) payload: forging or altering a payload without the
secret cannot preserve the signature, which is the idealised contract of the
HMAC the library uses. -/

/-- Injective code of an integer as a natural number, used to build the MAC. -/
def intCode : Int → Nat
  | Int.ofNat n => 2 * n
  | Int.negSucc n => 2 * n + 1

/-- Modelled from the spec: the keyed signature over the serialized payload
(value plus issuance timestamp). -/
def mac (secret : Nat) (v : Int) (t : Nat) : Nat :=
  Nat.pair secret (Nat.pair (intCode v) t)

/-- A signed token: the embedded value, the issuance timestamp, and the
signature. -/
structure Token where
  value : Int
  timestamp : Nat
  sig : Nat
  deriving DecidableEq, Repr

/-- Modelled from the spec: `serializer.dumps(v)` signs the value together
with the current time. -/
def dumps (secret : Nat) (v : Int) (now : Nat) : Token :=
  ⟨v, now, mac secret v now⟩

/-- Modelled from the spec: `serializer.loads(token, max_age)` verifies the
signature, then rejects the token when the elapsed time since issuance
exceeds `max_age`; failures are surfaced as `none` (the Python code catches
`SignatureExpired` and `BadSignature`). -/
def loads (secret : Nat) (tok : Token) (maxAge : Nat) (now : Nat) : Option Int :=
  if tok.sig = mac secret tok.value tok.timestamp then
    if now - tok.timestamp ≤ maxAge then some tok.value else none
  else none

/-- `create_session_token` (src/main.py:28-30): sign the user id. -/
def create_session_token (secret : Nat) (userId : Int) (now : Nat) : Token :=
  dumps secret userId now

/-- `validate_session_token` (src/main.py:33-40): load with
`SESSION_MAX_AGE`; a `SignatureExpired`/`BadSignature` exception becomes
`None`. -/
def validate_session_token (secret sessionMaxAge : Nat) (tok : Token) (now : Nat) :
    Option Int :=
  loads secret tok sessionMaxAge now

/-- `create_admin_session_token` (src/main.py:43-45): sign the value 0. -/
def create_admin_session_token (secret : Nat) (now : Nat) : Token :=
  dumps secret 0 now

/-- `validate_admin_session` (src/main.py:48-55): load with
`ADMIN_SESSION_MAX_AGE` and compare the embedded id to 0; exceptions become
`false`. -/
def validate_admin_session (secret adminMaxAge : Nat) (tok : Token) (now : Nat) :
    Bool :=
  match loads secret tok adminMaxAge now with
  | some userId => userId == 0
  | none => false

/-! ## Store data model

The SQLite tables (`items`, `bids`, `accounts`, `donations`) are embedded as
lists of records; `fetchone` on a keyed query becomes `List.find?`, SQL `MAX`
becomes `sqlMax`, and row insertion appends to the list. -/

/-- A row of the `items` table, as selected in src/main.py:199-249. -/
structure Item where
  id : Int
  title : String
  image : String
  author : String
  authorDescription : Option String
  minBid : Int
  year : Int
  description : String
  showOrder : Int
  isClosed : Bool
  deriving DecidableEq, Repr

/-- A row of the `bids` table (uuid, user_id, item_id, amount, created_at). -/
structure Bid where
  uuid : String
  userId : Int
  itemId : Int
  amount : Int
  createdAt : Nat
  deriving DecidableEq, Repr

/-- A row of the `donations` table (uuid, user_id unique, amount, updated_at). -/
structure Donation where
  uuid : String
  userId : Int
  amount : Int
  updatedAt : Nat
  deriving DecidableEq, Repr

/-- The relational store. -/
structure Store where
  items : List Item
  bids : List Bid
  donations : List Donation
  deriving DecidableEq, Repr

/-- SQL `MAX` over a list of non-null integers: `none` on the empty list. -/
def sqlMax : List Int → Option Int
  | [] => none
  | a :: rest =>
    match sqlMax rest with
    | none => some a
    | some m => some (max a m)

/-- Amounts of the bids stored for one item
(`SELECT amount FROM bids WHERE item_id = ?`). -/
def itemAmounts (s : Store) (itemId : Int) : List Int :=
  (s.bids.filter (fun b => b.itemId == itemId)).map Bid.amount

/-- The `max_existing_bid` computation of src/main.py:495-502: the row
returned by `SELECT MAX(amount)` holds NULL when no bids exist, and the
Python expression `max_bid_row[0] if max_bid_row and max_bid_row[0] else 0`
maps both NULL and a (falsy) 0 maximum to 0.  The same expression appears in
`get_user_bid` (src/main.py:564-573). -/
def max_existing_bid (s : Store) (itemId : Int) : Int :=
  match sqlMax (itemAmounts s itemId) with
  | none => 0
  | some m => if m = 0 then 0 else m

/-- Outcome of `place_bid`, one constructor per exit of src/main.py:447-527. -/
inductive BidOutcome where
  | notFound
  | closed
  | belowMinimum (minBid : Int)
  | notHighest (maxBid : Int)
  | accepted
  deriving DecidableEq, Repr

/-- HTTP status each `place_bid` exit maps to (the `HTTPException` codes and
the 200 of the success return). -/
def BidOutcome.httpStatus : BidOutcome → Nat
  | .notFound => 404
  | .closed => 400
  | .belowMinimum _ => 400
  | .notHighest _ => 400
  | .accepted => 200

/-- The bid-engine part of `place_bid` (src/main.py:464-521), after session
validation: fetch the item row, check the closed flag, the stored minimum,
and the current maximum, then insert a row with the fresh uuid. -/
def place_bid (s : Store) (userId itemId amount : Int) (freshUuid : String)
    (now : Nat) : BidOutcome × Store :=
  match s.items.find? (fun i => i.id == itemId) with
  | none => (.notFound, s)
  | some item =>
    if item.isClosed then (.closed, s)
    else if amount < item.minBid then (.belowMinimum item.minBid, s)
    else if amount ≤ max_existing_bid s itemId then
      (.notHighest (max_existing_bid s itemId), s)
    else (.accepted, { s with bids := s.bids ++ [⟨freshUuid, userId, itemId, amount, now⟩] })

/-- The decision procedure claim C1 describes, written from its words: the
checks in the stated order, with currentMax the highest amount among the
item's existing bids and 0 when there are none, and on success exactly one
new row with the fresh identifier, account id, item id and amount. -/
def placeBidClaim (s : Store) (userId itemId amount : Int) (freshUuid : String)
    (now : Nat) : BidOutcome × Store :=
  match s.items.find? (fun i => i.id == itemId) with
  | none => (.notFound, s)
  | some item =>
    if item.isClosed then (.closed, s)
    else if amount < item.minBid then (.belowMinimum item.minBid, s)
    else
      let currentMax : Int :=
        match sqlMax (itemAmounts s itemId) with
        | none => 0
        | some m => m
      if amount ≤ currentMax then (.notHighest currentMax, s)
      else (.accepted, { s with bids := s.bids ++ [⟨freshUuid, userId, itemId, amount, now⟩] })

/-! ## Sequential runs of place_bid -/

/-- One `POST /bid` request body plus the per-call fresh data (the uuid the
handler generates and the insertion timestamp). -/
structure BidReq where
  userId : Int
  itemId : Int
  amount : Int
  uuid : String
  time : Nat
  deriving DecidableEq, Repr

/-- Trace of running the bid engine once per request, in order: each entry
records the store the call saw, the request, and its outcome. -/
def runTrace : Store → List BidReq → List (Store × BidReq × BidOutcome)
  | _, [] => []
  | s, r :: rest =>
    (s, r, (place_bid s r.userId r.itemId r.amount r.uuid r.time).1) ::
      runTrace (place_bid s r.userId r.itemId r.amount r.uuid r.time).2 rest

/-- Amounts of the accepted bids for one item, in acceptance order. -/
def acceptedAmounts (s : Store) (reqs : List BidReq) (itemId : Int) : List Int :=
  (runTrace s reqs).filterMap fun e =>
    if e.2.2 = BidOutcome.accepted ∧ e.2.1.itemId = itemId then some e.2.1.amount
    else none

/-! ## Item listing (`GET /items`, src/main.py:199-249) -/

/-- Row shape of the `GET /items` / `GET /item/{id}` response (the `Item`
pydantic model of src/main.py:69-83): `minimumBid` is `i.min_bid` as
selected, `currentBid` is `MAX(b.amount)` over the LEFT JOIN, NULL when the
item has no bids. -/
structure ItemView where
  id : Int
  title : String
  image : String
  author : String
  authorDescription : Option String
  minimumBid : Int
  currentBid : Option Int
  year : Int
  description : String
  showOrder : Int
  isClosed : Bool
  deriving DecidableEq, Repr

/-- One row of the `get_items` query for a given item. -/
def itemView (s : Store) (i : Item) : ItemView :=
  { id := i.id, title := i.title, image := i.image, author := i.author,
    authorDescription := i.authorDescription, minimumBid := i.minBid,
    currentBid := sqlMax (itemAmounts s i.id), year := i.year,
    description := i.description, showOrder := i.showOrder,
    isClosed := i.isClosed }

/-- The `ORDER BY i.show_order` comparison. -/
def itemShowOrderLE (a b : Item) : Prop := a.showOrder ≤ b.showOrder

instance : DecidableRel itemShowOrderLE :=
  fun a b => inferInstanceAs (Decidable (a.showOrder ≤ b.showOrder))

instance : IsTotal Item itemShowOrderLE :=
  ⟨fun a b => Int.le_total a.showOrder b.showOrder⟩

instance : IsTrans Item itemShowOrderLE :=
  ⟨fun _ _ _ hab hbc => le_trans hab hbc⟩

/-- `get_items` (src/main.py:199-249): one row per item, grouped with the
maximum bid amount, ordered by show order ascending. -/
def get_items (s : Store) : List ItemView :=
  (List.insertionSort itemShowOrderLE s.items).map (itemView s)

/-- The effective minimum bid as claim C3 and the spec glossary define it:
the maximum of the item's configured minimum and the current highest bid
(the configured minimum alone when the item has no bids). -/
def effectiveMinimumBid (s : Store) (i : Item) : Int :=
  match sqlMax (itemAmounts s i.id) with
  | none => i.minBid
  | some m => max i.minBid m

/-! ## Remaining endpoints (src/main.py:447-720)

Each handler first checks the `session` cookie, then validates the token,
then applies Python truthiness `if not user_id` — which rejects both `None`
and the integer 0 — before touching the store. -/

/-- An HTTP-level result: a success payload or an error status code. -/
inductive Resp (α : Type) where
  | ok (val : α)
  | err (status : Nat)
  deriving DecidableEq, Repr

/-- Outcome of the bid-deletion logic, one constructor per exit of
src/main.py:584-644. -/
inductive DeleteOutcome where
  | notFound
  | closed
  | deleted
  deriving DecidableEq, Repr

/-- The store part of `delete_bid` (src/main.py:600-638): look the bid up by
(uuid, user_id) together — a bid of another account is indistinguishable
from a missing one; reject when the parent item is closed (a missing parent
row falls through to deletion); otherwise delete the matching rows. -/
def delete_bid (s : Store) (uuidArg : String) (userId : Int) :
    DeleteOutcome × Store :=
  match s.bids.find? (fun b => b.uuid == uuidArg && b.userId == userId) with
  | none => (.notFound, s)
  | some b =>
    if (match s.items.find? (fun i => i.id == b.itemId) with
        | some item => item.isClosed
        | none => false) then (.closed, s)
    else (.deleted,
      { s with bids :=
          (s.bids.filter (fun b2 => !(b2.uuid == uuidArg && b2.userId == userId))) })

/-- The query of `get_user_bid` (src/main.py:547-555): the user's bid for
the item with the greatest created_at (`ORDER BY created_at DESC LIMIT 1`;
tie order among equal timestamps is unspecified in SQLite, modelled as the
later row). -/
def latest_user_bid (s : Store) (userId itemId : Int) : Option Bid :=
  (s.bids.filter (fun b => b.userId == userId && b.itemId == itemId)).foldl
    (fun acc b =>
      match acc with
      | none => some b
      | some a2 => if a2.createdAt ≤ b.createdAt then some b else some a2) none

/-- The store part of `donate` (src/main.py:662-678): insert a donation row
keyed by user_id, or on conflict overwrite only the amount and timestamp
(the stored uuid is kept). -/
def donate_db (s : Store) (userId amount : Int) (freshUuid : String) (now : Nat) :
    Store :=
  if s.donations.any (fun d => d.userId == userId) then
    { s with donations :=
        (s.donations.map (fun d =>
          if d.userId == userId then { d with amount := amount, updatedAt := now }
          else d)) }
  else
    { s with donations := s.donations ++ [⟨freshUuid, userId, amount, now⟩] }

/-- The store part of `get_donation` (src/main.py:700-714): look up the
donation row by user_id; when none exists the handler raises
`HTTPException(status_code=400, detail="No donation found")`. -/
def get_donation_db (s : Store) (userId : Int) : Resp Int :=
  match s.donations.find? (fun d => d.userId == userId) with
  | some d => .ok d.amount
  | none => .err 400

/-- `place_bid` handler (src/main.py:447-527) including its session checks. -/
def place_bid_endpoint (secret sessionMaxAge now : Nat) (session : Option Token)
    (s : Store) (itemId amount : Int) (freshUuid : String) : Resp String × Store :=
  match session with
  | none => (.err 401, s)
  | some tok =>
    match validate_session_token secret sessionMaxAge tok now with
    | none => (.err 401, s)
    | some u =>
      if u = 0 then (.err 401, s)
      else
        match place_bid s u itemId amount freshUuid now with
        | (.notFound, s2) => (.err 404, s2)
        | (.closed, s2) => (.err 400, s2)
        | (.belowMinimum _, s2) => (.err 400, s2)
        | (.notHighest _, s2) => (.err 400, s2)
        | (.accepted, s2) => (.ok "Bid placed successfully", s2)

/-- `get_user_bid` handler (src/main.py:530-582): authentication failures
are surfaced as 404 to avoid leaking existence. -/
def get_user_bid_endpoint (secret sessionMaxAge now : Nat) (session : Option Token)
    (s : Store) (itemId : Int) : Resp (String × Int × Bool) :=
  match session with
  | none => .err 404
  | some tok =>
    match validate_session_token secret sessionMaxAge tok now with
    | none => .err 404
    | some u =>
      if u = 0 then .err 404
      else
        match latest_user_bid s u itemId with
        | none => .err 404
        | some b => .ok (b.uuid, b.amount, decide (max_existing_bid s itemId ≤ b.amount))

/-- `delete_bid` handler (src/main.py:584-644) including its session checks. -/
def delete_bid_endpoint (secret sessionMaxAge now : Nat) (session : Option Token)
    (s : Store) (uuidArg : String) : Resp String × Store :=
  match session with
  | none => (.err 401, s)
  | some tok =>
    match validate_session_token secret sessionMaxAge tok now with
    | none => (.err 401, s)
    | some u =>
      if u = 0 then (.err 401, s)
      else
        match delete_bid s uuidArg u with
        | (.notFound, s2) => (.err 404, s2)
        | (.closed, s2) => (.err 400, s2)
        | (.deleted, s2) => (.ok "Bid deleted successfully", s2)

/-- `donate` handler (src/main.py:646-683) including its session checks. -/
def donate_endpoint (secret sessionMaxAge now : Nat) (session : Option Token)
    (s : Store) (amount : Int) (freshUuid : String) : Resp String × Store :=
  match session with
  | none => (.err 401, s)
  | some tok =>
    match validate_session_token secret sessionMaxAge tok now with
    | none => (.err 401, s)
    | some u =>
      if u = 0 then (.err 401, s)
      else (.ok "Donation recorded successfully", donate_db s u amount freshUuid now)

/-- `get_donation` handler (src/main.py:685-720) including its session
checks. -/
def get_donation_endpoint (secret sessionMaxAge now : Nat) (session : Option Token)
    (s : Store) : Resp Int :=
  match session with
  | none => .err 401
  | some tok =>
    match validate_session_token secret sessionMaxAge tok now with
    | none => .err 401
    | some u =>
      if u = 0 then .err 401
      else get_donation_db s u

/-! ## Interleaved executions of place_bid (src/main.py:464-518)

The handlers share one `aiosqlite` connection: individual SQL statements are
serialized, but the handler coroutine yields at every `await`, in particular
between the SELECTs (item fetch, `MAX(amount)`) and the INSERT, and no
transaction isolates one request from another.  A call is therefore modelled
with two atomic phases: the read phase (the SELECTs and the checks of
src/main.py:467-509) and the write phase (the INSERT and commit of
src/main.py:511-518).  A schedule lists which call advances by one phase at
each moment. -/

/-- Whether the bid-acceptance checks pass against the store the read phase
of a call sees. -/
def bidChecksPass (s : Store) (r : BidReq) : Bool :=
  match s.items.find? (fun i => i.id == r.itemId) with
  | none => false
  | some item =>
    !item.isClosed && decide (item.minBid ≤ r.amount)
      && decide (max_existing_bid s r.itemId < r.amount)

/-- Progress of one in-flight `POST /bid` call. -/
inductive Phase where
  | pending
  | readDone (passed : Bool)
  | done (accepted : Bool)
  deriving DecidableEq, Repr

/-- The store together with the in-flight calls. -/
structure ConcState where
  store : Store
  calls : List (BidReq × Phase)
  deriving DecidableEq, Repr

/-- Advance one call by one phase: run its read phase against the current
store, or perform its insert when the captured checks passed. -/
def stepCall (s : Store) : BidReq × Phase → Store × (BidReq × Phase)
  | (r, .pending) => (s, (r, .readDone (bidChecksPass s r)))
  | (r, .readDone true) =>
    ({ s with bids := s.bids ++ [⟨r.uuid, r.userId, r.itemId, r.amount, r.time⟩] },
     (r, .done true))
  | (r, .readDone false) => (s, (r, .done false))
  | (r, .done b) => (s, (r, .done b))

/-- Advance the call named by a schedule entry. -/
def schedStep (c : ConcState) (i : Nat) : ConcState :=
  match c.calls[i]? with
  | none => c
  | some call =>
    { store := (stepCall c.store call).1,
      calls := c.calls.set i (stepCall c.store call).2 }

/-- Run a whole schedule of call indices. -/
def runSched (c : ConcState) (sched : List Nat) : ConcState :=
  sched.foldl schedStep c

/-! ## Sample data used by concrete witnesses and counterexamples -/

/-- An open item with id 1 and stored minimum bid 100. -/
def sampleItem : Item :=
  { id := 1, title := "Lot 1", image := "lot1.png", author := "A",
    authorDescription := none, minBid := 100, year := 2024,
    description := "sample", showOrder := 1, isClosed := false }

/-- A store with the one open item and no bids or donations. -/
def sampleStore : Store := { items := [sampleItem], bids := [], donations := [] }

/-- A store with the one open item and a single stored bid of 150 on it. -/
def sampleStoreWithBid : Store :=
  { items := [sampleItem], bids := [⟨"b1", 7, 1, 150, 0⟩], donations := [] }

/-- Request: account 2 bids 100 on item 1. -/
def sampleReq1 : BidReq := { userId := 2, itemId := 1, amount := 100, uuid := "u1", time := 1 }

/-- Request: account 3 bids 150 on item 1. -/
def sampleReq2 : BidReq := { userId := 3, itemId := 1, amount := 150, uuid := "u2", time := 2 }

/-- Request: account 3 also bids 100 on item 1 (same amount as sampleReq1). -/
def sampleReqEq : BidReq := { userId := 3, itemId := 1, amount := 100, uuid := "u3", time := 1 }

/-- A store with the one open item and a stored donation of 50 by account 5. -/
def sampleStoreWithDonation : Store :=
  { items := [sampleItem], bids := [], donations := [⟨"d1", 5, 50, 0⟩] }

/-! ## Helper lemmas -/

theorem intCode_inj : ∀ {a b : Int}, intCode a = intCode b → a = b
  | Int.ofNat n, Int.ofNat m, h => by
    simp only [intCode] at h
    exact congrArg Int.ofNat (by omega)
  | Int.ofNat n, Int.negSucc m, h => by
    simp only [intCode] at h
    exact absurd h (by omega)
  | Int.negSucc n, Int.ofNat m, h => by
    simp only [intCode] at h
    exact absurd h (by omega)
  | Int.negSucc n, Int.negSucc m, h => by
    simp only [intCode] at h
    exact congrArg Int.negSucc (by omega)

theorem mac_inj {secret : Nat} {v v2 : Int} {t t2 : Nat}
    (h : mac secret v t = mac secret v2 t2) : v = v2 ∧ t = t2 := by
  unfold mac at h
  have h1 := (Nat.pair_eq_pair.mp h).2
  have h2 := Nat.pair_eq_pair.mp h1
  exact ⟨intCode_inj h2.1, h2.2⟩

theorem sqlMax_eq_none {l : List Int} (h : sqlMax l = none) : l = [] := by
  cases l with
  | nil => rfl
  | cons x rest =>
    exfalso
    cases hr : sqlMax rest <;> simp [sqlMax, hr] at h

theorem sqlMax_le {l : List Int} {m : Int} (h : sqlMax l = some m) :
    ∀ a ∈ l, a ≤ m := by
  induction l generalizing m with
  | nil => simp [sqlMax] at h
  | cons x rest ih =>
    intro a ha
    cases hr : sqlMax rest with
    | none =>
      have hrest : rest = [] := sqlMax_eq_none hr
      subst hrest
      simp [sqlMax] at h
      subst h
      simp at ha
      omega
    | some k =>
      simp [sqlMax, hr] at h
      subst h
      rcases List.mem_cons.mp ha with rfl | ha2
      · exact le_max_left _ _
      · exact le_trans (ih hr a ha2) (le_max_right _ _)

theorem max_existing_bid_eq {s : Store} {itemId m : Int}
    (h : sqlMax (itemAmounts s itemId) = some m) :
    max_existing_bid s itemId = m := by
  unfold max_existing_bid
  rw [h]
  by_cases hm : m = 0
  · simp [hm]
  · simp [hm]

theorem max_existing_bid_eq_currentMax (s : Store) (itemId : Int) :
    max_existing_bid s itemId =
      (match sqlMax (itemAmounts s itemId) with
       | none => 0
       | some m => m) := by
  cases h : sqlMax (itemAmounts s itemId) with
  | none => simp [max_existing_bid, h]
  | some m => simp [max_existing_bid_eq h]

theorem stored_lt_of_gt_max {s : Store} {itemId a : Int}
    (h : max_existing_bid s itemId < a) :
    ∀ b ∈ s.bids, b.itemId = itemId → b.amount < a := by
  intro b hb hit
  have hmem : b.amount ∈ itemAmounts s itemId :=
    List.mem_map_of_mem Bid.amount (List.mem_filter.mpr ⟨hb, by simp [hit]⟩)
  cases hm : sqlMax (itemAmounts s itemId) with
  | none =>
    rw [sqlMax_eq_none hm] at hmem
    simp at hmem
  | some m =>
    have h1 := sqlMax_le hm _ hmem
    have h2 := max_existing_bid_eq hm
    omega

theorem place_bid_accepted {s : Store} {u it a : Int} {uu : String} {t : Nat}
    (h : (place_bid s u it a uu t).1 = BidOutcome.accepted) :
    ∃ item, s.items.find? (fun i => i.id == it) = some item
      ∧ item.isClosed = false ∧ item.minBid ≤ a
      ∧ ∀ b ∈ s.bids, b.itemId = it → b.amount < a := by
  unfold place_bid at h
  cases hfind : s.items.find? (fun i => i.id == it) with
  | none => rw [hfind] at h; simp at h
  | some item =>
    rw [hfind] at h
    by_cases h1 : item.isClosed
    · simp [h1] at h
    · by_cases h2 : a < item.minBid
      · simp [h1, h2] at h
      · by_cases h3 : a ≤ max_existing_bid s it
        · simp [h1, h2, h3] at h
        · exact ⟨item, rfl, by simpa using h1, by omega,
            stored_lt_of_gt_max (by omega)⟩

theorem place_bid_accepted_snd {s : Store} {u it a : Int} {uu : String} {t : Nat}
    (h : (place_bid s u it a uu t).1 = BidOutcome.accepted) :
    (place_bid s u it a uu t).2 =
      { s with bids := s.bids ++ [⟨uu, u, it, a, t⟩] } := by
  unfold place_bid at h ⊢
  cases hfind : s.items.find? (fun i => i.id == it) with
  | none => rw [hfind] at h; simp at h
  | some item =>
    rw [hfind] at h
    by_cases h1 : item.isClosed
    · simp [h1] at h
    · by_cases h2 : a < item.minBid
      · simp [h1, h2] at h
      · by_cases h3 : a ≤ max_existing_bid s it
        · simp [h1, h2, h3] at h
        · simp [h1, h2, h3]

theorem place_bid_snd (s : Store) (u it a : Int) (uu : String) (t : Nat) :
    (place_bid s u it a uu t).2 = s
    ∨ (place_bid s u it a uu t).2 =
        { s with bids := s.bids ++ [⟨uu, u, it, a, t⟩] } := by
  unfold place_bid
  cases s.items.find? (fun i => i.id == it) with
  | none => exact Or.inl rfl
  | some item =>
    by_cases h1 : item.isClosed
    · simp [h1]
    · by_cases h2 : a < item.minBid
      · simp [h1, h2]
      · by_cases h3 : a ≤ max_existing_bid s it
        · simp [h1, h2, h3]
        · simp [h1, h2, h3]

theorem place_bid_bids_mono {s : Store} {u it a : Int} {uu : String} {t : Nat}
    {b : Bid} (hb : b ∈ s.bids) : b ∈ (place_bid s u it a uu t).2.bids := by
  rcases place_bid_snd s u it a uu t with h | h
  · rw [h]; exact hb
  · rw [h]; exact List.mem_append_left _ hb

theorem runTrace_mem {reqs : List BidReq} {s : Store}
    {e : Store × BidReq × BidOutcome} (he : e ∈ runTrace s reqs) :
    (place_bid e.1 e.2.1.userId e.2.1.itemId e.2.1.amount e.2.1.uuid e.2.1.time).1
      = e.2.2 := by
  induction reqs generalizing s with
  | nil => simp [runTrace] at he
  | cons r rest ih =>
    rw [runTrace] at he
    rcases List.mem_cons.mp he with rfl | he2
    · rfl
    · exact ih he2

theorem acceptedAmounts_cons (s : Store) (r : BidReq) (rest : List BidReq)
    (itemId : Int) :
    acceptedAmounts s (r :: rest) itemId =
      if (place_bid s r.userId r.itemId r.amount r.uuid r.time).1 = BidOutcome.accepted
          ∧ r.itemId = itemId
      then r.amount ::
        acceptedAmounts (place_bid s r.userId r.itemId r.amount r.uuid r.time).2
          rest itemId
      else
        acceptedAmounts (place_bid s r.userId r.itemId r.amount r.uuid r.time).2
          rest itemId := by
  unfold acceptedAmounts
  rw [runTrace, List.filterMap_cons]
  by_cases h2 : r.itemId = itemId
  · subst h2
    by_cases h1 : (place_bid s r.userId r.itemId r.amount r.uuid r.time).1
        = BidOutcome.accepted
    · simp [h1]
    · simp [h1]
  · simp [h2]

theorem acceptedAmounts_gt_stored {reqs : List BidReq} {s : Store}
    {itemId x : Int} (hx : x ∈ acceptedAmounts s reqs itemId) :
    ∀ b ∈ s.bids, b.itemId = itemId → b.amount < x := by
  induction reqs generalizing s with
  | nil => simp [acceptedAmounts, runTrace] at hx
  | cons r rest ih =>
    intro b hb hit
    rw [acceptedAmounts_cons] at hx
    by_cases hacc : (place_bid s r.userId r.itemId r.amount r.uuid r.time).1
        = BidOutcome.accepted ∧ r.itemId = itemId
    · rw [if_pos hacc] at hx
      rcases List.mem_cons.mp hx with rfl | hx2
      · obtain ⟨item, _, _, _, hlt⟩ := place_bid_accepted hacc.1
        exact hlt b hb (hacc.2 ▸ hit)
      · exact ih hx2 b (place_bid_bids_mono hb) hit
    · rw [if_neg hacc] at hx
      exact ih hx b (place_bid_bids_mono hb) hit

theorem acceptedAmounts_pairwise (s : Store) (reqs : List BidReq) (itemId : Int) :
    List.Pairwise (· < ·) (acceptedAmounts s reqs itemId) := by
  induction reqs generalizing s with
  | nil => simp [acceptedAmounts, runTrace]
  | cons r rest ih =>
    rw [acceptedAmounts_cons]
    by_cases hacc : (place_bid s r.userId r.itemId r.amount r.uuid r.time).1
        = BidOutcome.accepted ∧ r.itemId = itemId
    · rw [if_pos hacc]
      refine List.pairwise_cons.mpr ⟨?_, ih _⟩
      intro x hx
      have hnew : (⟨r.uuid, r.userId, r.itemId, r.amount, r.time⟩ : Bid)
          ∈ (place_bid s r.userId r.itemId r.amount r.uuid r.time).2.bids := by
        rw [place_bid_accepted_snd hacc.1]
        simp
      exact acceptedAmounts_gt_stored hx _ hnew hacc.2
    · rw [if_neg hacc]
      exact ih _

theorem validate_create (secret maxAge t now : Nat) (u : Int)
    (h : now - t ≤ maxAge) :
    validate_session_token secret maxAge (create_session_token secret u t) now
      = some u := by
  simp [validate_session_token, create_session_token, dumps, loads, h]

theorem delete_bid_endpoint_reduce (secret maxAge now t : Nat) (u : Int)
    (s : Store) (uuidArg : String) (hu : u ≠ 0) (hage : now - t ≤ maxAge) :
    delete_bid_endpoint secret maxAge now
        (some (create_session_token secret u t)) s uuidArg
      = (match delete_bid s uuidArg u with
         | (.notFound, s2) => (Resp.err 404, s2)
         | (.closed, s2) => (Resp.err 400, s2)
         | (.deleted, s2) => (Resp.ok "Bid deleted successfully", s2)) := by
  unfold delete_bid_endpoint
  simp [validate_create secret maxAge t now u hage, hu]

end Auction

/-- C1: place_bid decides its outcome in the claimed order (404 item lookup,
400 closed, 400 below minimum, 400 not above the current maximum — 0 when
the item has no bids — and otherwise inserts exactly one new bid row with
the fresh identifier and succeeds with 200); the HTTP statuses are as
claimed. -/
theorem C1_place_bid_decision_order (s : Auction.Store) (userId itemId amount : Int)
    (freshUuid : String) (now : Nat) :
    Auction.place_bid s userId itemId amount freshUuid now =
      Auction.placeBidClaim s userId itemId amount freshUuid now
    ∧ Auction.BidOutcome.notFound.httpStatus = 404
    ∧ Auction.BidOutcome.closed.httpStatus = 400
    ∧ (Auction.BidOutcome.belowMinimum amount).httpStatus = 400
    ∧ (Auction.BidOutcome.notHighest amount).httpStatus = 400
    ∧ Auction.BidOutcome.accepted.httpStatus = 200 := by
  refine ⟨?_, rfl, rfl, rfl, rfl, rfl⟩
  unfold Auction.place_bid Auction.placeBidClaim
  rw [Auction.max_existing_bid_eq_currentMax]

/-- C2: in any sequential run of place_bid from any store state, an accepted
bid is strictly above every bid already stored for its item, at least the
item's stored minimum, and placed while the item is open; consequently the
accepted amounts per item are pairwise strictly increasing in acceptance
order (so no two accepted bids for one item share an amount). -/
theorem C2_accepted_bid_invariant (s0 : Auction.Store) (reqs : List Auction.BidReq) :
    (∀ (sb : Auction.Store) (r : Auction.BidReq),
      (sb, r, Auction.BidOutcome.accepted) ∈ Auction.runTrace s0 reqs →
      ∃ item, sb.items.find? (fun i => i.id == r.itemId) = some item
        ∧ item.isClosed = false ∧ item.minBid ≤ r.amount
        ∧ ∀ b ∈ sb.bids, b.itemId = r.itemId → b.amount < r.amount)
    ∧ ∀ itemId, List.Pairwise (· < ·) (Auction.acceptedAmounts s0 reqs itemId) := by
  constructor
  · intro sb r hmem
    exact Auction.place_bid_accepted (Auction.runTrace_mem hmem)
  · intro itemId
    exact Auction.acceptedAmounts_pairwise s0 reqs itemId

/-- Witness for C2: from the sample store, bidding 100 then 150 on item 1
accepts both in order, and the first acceptance satisfies the stated
conditions against the store it saw. -/
theorem C2_accepted_bid_invariant_witness :
    (∃ item, Auction.sampleStore.items.find?
        (fun i => i.id == Auction.sampleReq1.itemId) = some item
      ∧ item.isClosed = false ∧ item.minBid ≤ Auction.sampleReq1.amount
      ∧ ∀ b ∈ Auction.sampleStore.bids,
          b.itemId = Auction.sampleReq1.itemId → b.amount < Auction.sampleReq1.amount)
    ∧ List.Pairwise (· < ·)
        (Auction.acceptedAmounts Auction.sampleStore
          [Auction.sampleReq1, Auction.sampleReq2] 1) := by
  have h := C2_accepted_bid_invariant Auction.sampleStore
    [Auction.sampleReq1, Auction.sampleReq2]
  exact ⟨h.1 Auction.sampleStore Auction.sampleReq1 (by decide), h.2 1⟩

/-- C3 counterexample: in a store whose only item has configured minimum 100
and one stored bid of 150, the minimum-bid field GET /items returns is 100,
while the effective minimum the claim says is returned is
max(100, 150) = 150: the endpoint returns the configured minimum, not the
effective one. -/
theorem C3_counterexample :
    (Auction.get_items Auction.sampleStoreWithBid).map Auction.ItemView.minimumBid
      = [100]
    ∧ Auction.effectiveMinimumBid Auction.sampleStoreWithBid Auction.sampleItem = 150
    ∧ (100 : Int) ≠ 150 := by
  refine ⟨rfl, rfl, by decide⟩

/-- C3 amended: GET /items returns, for every item in the store, one row
carrying the item's configured minimum bid (from which, together with the
returned current highest bid, the effective minimum is derivable), its
current highest bid (null exactly when the item has no bids), and its
closed flag, and the returned list is ordered by show order ascending. -/
theorem C3_items_listing (s : Auction.Store) :
    List.Pairwise (fun a b : Auction.ItemView => a.showOrder ≤ b.showOrder)
      (Auction.get_items s)
    ∧ (Auction.get_items s).Perm (s.items.map (Auction.itemView s))
    ∧ ∀ v ∈ Auction.get_items s, ∃ i, i ∈ s.items ∧ v = Auction.itemView s i
        ∧ v.minimumBid = i.minBid
        ∧ v.currentBid = Auction.sqlMax (Auction.itemAmounts s i.id)
        ∧ (v.currentBid = none ↔ Auction.itemAmounts s i.id = [])
        ∧ v.isClosed = i.isClosed ∧ v.showOrder = i.showOrder := by
  refine ⟨?_, ?_, ?_⟩
  · have hs := List.sorted_insertionSort Auction.itemShowOrderLE s.items
    exact List.pairwise_map.mpr (hs.imp (fun h => h))
  · exact (List.perm_insertionSort Auction.itemShowOrderLE s.items).map
      (Auction.itemView s)
  · intro v hv
    obtain ⟨i, hi, hvi⟩ := List.mem_map.mp hv
    refine ⟨i, (List.mem_insertionSort Auction.itemShowOrderLE).mp hi,
      hvi.symm, ?_, ?_, ?_, ?_, ?_⟩
    · rw [← hvi]; rfl
    · rw [← hvi]; rfl
    · rw [← hvi]
      constructor
      · intro hnone
        exact Auction.sqlMax_eq_none hnone
      · intro hnil
        show Auction.sqlMax (Auction.itemAmounts s i.id) = none
        rw [hnil]
        rfl
    · rw [← hvi]; rfl
    · rw [← hvi]; rfl

/-- Witness for C3 amended at the sample store with one bid: its single
returned row satisfies the per-row properties. -/
theorem C3_items_listing_witness :
    ∃ i, i ∈ Auction.sampleStoreWithBid.items
      ∧ Auction.itemView Auction.sampleStoreWithBid Auction.sampleItem
          = Auction.itemView Auction.sampleStoreWithBid i
      ∧ (Auction.itemView Auction.sampleStoreWithBid Auction.sampleItem).minimumBid
          = i.minBid
      ∧ (Auction.itemView Auction.sampleStoreWithBid Auction.sampleItem).currentBid
          = Auction.sqlMax (Auction.itemAmounts Auction.sampleStoreWithBid i.id)
      ∧ ((Auction.itemView Auction.sampleStoreWithBid Auction.sampleItem).currentBid
            = none
          ↔ Auction.itemAmounts Auction.sampleStoreWithBid i.id = [])
      ∧ (Auction.itemView Auction.sampleStoreWithBid Auction.sampleItem).isClosed
          = i.isClosed
      ∧ (Auction.itemView Auction.sampleStoreWithBid Auction.sampleItem).showOrder
          = i.showOrder := by
  have h := (C3_items_listing Auction.sampleStoreWithBid).2.2
    (Auction.itemView Auction.sampleStoreWithBid Auction.sampleItem) (by decide)
  exact h

/-- C4: validating the token produced by issue(x) immediately after issuance
(elapsed time 0) returns x for every maxAge; once the elapsed time since
issuance exceeds maxAge, validation of that token fails. -/
theorem C4_issue_validate_roundtrip (secret : Nat) (x : Int) (t maxAge now : Nat) :
    Auction.validate_session_token secret maxAge
      (Auction.create_session_token secret x t) t = some x
    ∧ (maxAge < now - t →
        Auction.validate_session_token secret maxAge
          (Auction.create_session_token secret x t) now = none) := by
  constructor
  · simp [Auction.validate_session_token, Auction.create_session_token,
      Auction.dumps, Auction.loads]
  · intro h
    have hgt : ¬ (now - t ≤ maxAge) := by omega
    simp [Auction.validate_session_token, Auction.create_session_token,
      Auction.dumps, Auction.loads, hgt]

/-- Witness for C4 at secret 1, account id 5, issuance time 10, max age 3,
validation time 14. -/
theorem C4_issue_validate_roundtrip_witness :
    Auction.validate_session_token 1 3 (Auction.create_session_token 1 5 10) 10 = some 5
    ∧ Auction.validate_session_token 1 3 (Auction.create_session_token 1 5 10) 14 = none := by
  have h := C4_issue_validate_roundtrip 1 5 10 3 14
  exact ⟨h.1, h.2 (by decide)⟩

/-- C5: validation is total: it returns an account id or the failure value;
a bad signature, a tampered payload (a payload differing from the one the
signature was computed over), or an expired timestamp all yield failure,
never an exception. -/
theorem C5_validate_total_and_rejects (secret maxAge now : Nat) (tok : Auction.Token) :
    ((Auction.validate_session_token secret maxAge tok now).isSome = true
      ∨ Auction.validate_session_token secret maxAge tok now = none)
    ∧ (tok.sig ≠ Auction.mac secret tok.value tok.timestamp →
        Auction.validate_session_token secret maxAge tok now = none)
    ∧ (∀ (v : Int) (t : Nat), tok.sig = Auction.mac secret v t →
        (tok.value ≠ v ∨ tok.timestamp ≠ t) →
        Auction.validate_session_token secret maxAge tok now = none)
    ∧ (maxAge < now - tok.timestamp →
        Auction.validate_session_token secret maxAge tok now = none) := by
  refine ⟨?_, ?_, ?_, ?_⟩
  · cases h : Auction.validate_session_token secret maxAge tok now
    · exact Or.inr rfl
    · exact Or.inl rfl
  · intro h
    simp [Auction.validate_session_token, Auction.loads, h]
  · intro v t hsig hne
    have hbad : tok.sig ≠ Auction.mac secret tok.value tok.timestamp := by
      intro hcontra
      have := Auction.mac_inj (hsig ▸ hcontra : Auction.mac secret v t =
        Auction.mac secret tok.value tok.timestamp)
      rcases hne with hne | hne
      · exact hne this.1.symm
      · exact hne this.2.symm
    simp [Auction.validate_session_token, Auction.loads, hbad]
  · intro h
    have hgt : ¬ (now - tok.timestamp ≤ maxAge) := by omega
    by_cases hsig : tok.sig = Auction.mac secret tok.value tok.timestamp
    · simp [Auction.validate_session_token, Auction.loads, hsig, hgt]
    · simp [Auction.validate_session_token, Auction.loads, hsig]

/-- Witness for C5: a token signed for value 7 at time 0 whose payload was
tampered to value 8 is rejected at secret 1, max age 100, time 0. -/
theorem C5_validate_total_and_rejects_witness :
    Auction.validate_session_token 1 100
      ⟨8, 0, Auction.mac 1 7 0⟩ 0 = none := by
  have h := C5_validate_total_and_rejects 1 100 0 ⟨8, 0, Auction.mac 1 7 0⟩
  exact h.2.2.1 7 0 rfl (Or.inl (by decide))

/-- C6: admin validation accepts exactly the validly signed, unexpired
tokens embedding the identifier 0; an ordinary session token for id 0
validates as admin immediately after issuance; a token embedding a nonzero
id is never accepted; and the admin issuer is the ordinary issuer applied to
id 0 (one shared signature scheme). -/
theorem C6_admin_validation (secret adminMaxAge now : Nat) (tok : Auction.Token)
    (t : Nat) :
    (Auction.validate_admin_session secret adminMaxAge tok now = true ↔
      tok.sig = Auction.mac secret tok.value tok.timestamp
      ∧ now - tok.timestamp ≤ adminMaxAge ∧ tok.value = 0)
    ∧ Auction.create_admin_session_token secret t =
        Auction.create_session_token secret 0 t
    ∧ Auction.validate_admin_session secret adminMaxAge
        (Auction.create_session_token secret 0 t) t = true
    ∧ (tok.value ≠ 0 →
        Auction.validate_admin_session secret adminMaxAge tok now = false) := by
  refine ⟨?_, rfl, ?_, ?_⟩
  · unfold Auction.validate_admin_session Auction.loads
    by_cases hsig : tok.sig = Auction.mac secret tok.value tok.timestamp
    · by_cases hage : now - tok.timestamp ≤ adminMaxAge
      · simp [hsig, hage]
      · simp [hsig, hage]
    · simp [hsig]
  · simp [Auction.validate_admin_session, Auction.create_session_token,
      Auction.dumps, Auction.loads]
  · intro hne
    unfold Auction.validate_admin_session Auction.loads
    by_cases hsig : tok.sig = Auction.mac secret tok.value tok.timestamp
    · by_cases hage : now - tok.timestamp ≤ adminMaxAge
      · simp [hsig, hage, hne]
      · simp [hsig, hage]
    · simp [hsig]

/-- Witness for C6: at secret 1, admin max age 1800, a token embedding id 3
is rejected, and the iff holds at a concrete signed admin token. -/
theorem C6_admin_validation_witness :
    Auction.validate_admin_session 1 1800
      (Auction.create_session_token 1 0 5) 5 = true
    ∧ Auction.validate_admin_session 1 1800 ⟨3, 0, Auction.mac 1 3 0⟩ 0 = false := by
  have h1 := C6_admin_validation 1 1800 5 (Auction.create_session_token 1 0 5) 5
  have h2 := C6_admin_validation 1 1800 0 ⟨3, 0, Auction.mac 1 3 0⟩ 0
  exact ⟨h1.2.2.1, h2.2.2.2 (by decide)⟩

/-- C7: delete_bid (with a structurally valid session for account u) fails
404 whenever no stored bid matches the uuid and the calling account — so
also when the bid exists but belongs to another account; fails 400 when the
matched bid's parent item is closed; and in every other case deletes the
bid unconditionally, with no condition on it being the current highest. -/
theorem C7_delete_bid_outcomes (secret sessionMaxAge now t : Nat)
    (s : Auction.Store) (uuidArg : String) (u : Int)
    (hu : u ≠ 0) (hage : now - t ≤ sessionMaxAge) :
    ((∀ b ∈ s.bids, ¬(b.uuid = uuidArg ∧ b.userId = u)) →
      Auction.delete_bid_endpoint secret sessionMaxAge now
          (some (Auction.create_session_token secret u t)) s uuidArg
        = (Auction.Resp.err 404, s))
    ∧ ∀ b, s.bids.find? (fun b2 => b2.uuid == uuidArg && b2.userId == u) = some b →
        (((∃ item, s.items.find? (fun i => i.id == b.itemId) = some item
              ∧ item.isClosed = true) →
          Auction.delete_bid_endpoint secret sessionMaxAge now
              (some (Auction.create_session_token secret u t)) s uuidArg
            = (Auction.Resp.err 400, s))
        ∧ ((∀ item, s.items.find? (fun i => i.id == b.itemId) = some item →
              item.isClosed = false) →
          Auction.delete_bid_endpoint secret sessionMaxAge now
              (some (Auction.create_session_token secret u t)) s uuidArg
            = (Auction.Resp.ok "Bid deleted successfully",
               { s with bids :=
                  (s.bids.filter (fun b2 =>
                    !(b2.uuid == uuidArg && b2.userId == u))) }))) := by
  have hred := Auction.delete_bid_endpoint_reduce secret sessionMaxAge now t u s
    uuidArg hu hage
  constructor
  · intro hnone
    have hfind : s.bids.find? (fun b2 => b2.uuid == uuidArg && b2.userId == u)
        = none := by
      apply List.find?_eq_none.mpr
      intro b hb
      simp only [Bool.and_eq_true, beq_iff_eq]
      exact fun hcontra => hnone b hb ⟨hcontra.1, hcontra.2⟩
    rw [hred]
    simp [Auction.delete_bid, hfind]
  · intro b hb
    constructor
    · rintro ⟨item, hfi, hcl⟩
      rw [hred]
      simp [Auction.delete_bid, hb, hfi, hcl]
    · intro hopen
      have hcl : (match s.items.find? (fun i => i.id == b.itemId) with
          | some item => item.isClosed
          | none => false) = false := by
        cases hfi : s.items.find? (fun i => i.id == b.itemId) with
        | none => rfl
        | some item => simpa using hopen item hfi
      rw [hred]
      simp [Auction.delete_bid, hb, hcl]

/-- Witness for C7: account 7 (valid unexpired session) deletes its own bid
"b1" on the open item, and the bid row is removed. -/
theorem C7_delete_bid_outcomes_witness :
    Auction.delete_bid_endpoint 1 604800 20 (some (Auction.create_session_token 1 7 20))
        Auction.sampleStoreWithBid "b1"
      = (Auction.Resp.ok "Bid deleted successfully",
         { Auction.sampleStoreWithBid with bids :=
            (Auction.sampleStoreWithBid.bids.filter (fun b2 =>
              !(b2.uuid == "b1" && b2.userId == 7))) }) := by
  have h := C7_delete_bid_outcomes 1 604800 20 20 Auction.sampleStoreWithBid "b1" 7
    (by decide) (by decide)
  exact (h.2 ⟨"b1", 7, 1, 150, 0⟩ (by decide)).2 (by decide)

/-- C8 counterexample: with no donation row stored for account 1,
get_donation fails with HTTP 400 ("No donation found"), which is not the
404 NotFound status the claim states. -/
theorem C8_counterexample :
    Auction.get_donation_db Auction.sampleStore 1 = Auction.Resp.err 400
    ∧ (Auction.Resp.err 400 : Auction.Resp Int) ≠ Auction.Resp.err 404 := by
  exact ⟨rfl, by decide⟩

/-- C8 amended: getDonation returns the stored amount when a donation row
exists for the account, and fails with HTTP 400 ("No donation found") — not
404 NotFound — when none exists. -/
theorem C8_get_donation (s : Auction.Store) (uid : Int) :
    (∀ d, s.donations.find? (fun d2 => d2.userId == uid) = some d →
      Auction.get_donation_db s uid = Auction.Resp.ok d.amount)
    ∧ (s.donations.find? (fun d2 => d2.userId == uid) = none →
      Auction.get_donation_db s uid = Auction.Resp.err 400) := by
  constructor
  · intro d hd
    simp [Auction.get_donation_db, hd]
  · intro hd
    simp [Auction.get_donation_db, hd]

/-- Witness for C8 amended: account 5's stored donation of 50 is returned. -/
theorem C8_get_donation_witness :
    Auction.get_donation_db Auction.sampleStoreWithDonation 5 = Auction.Resp.ok 50 := by
  have h := C8_get_donation Auction.sampleStoreWithDonation 5
  exact h.1 ⟨"d1", 5, 50, 0⟩ (by decide)

/-- C9: a correctly signed, unexpired session token embedding account id 0
is rejected by every session-authenticated endpoint — 401 from POST /bid,
DELETE /bid/{id}, POST /donate and GET /donations, 404 from
GET /bid/{item_id} — with the store unchanged, because the Python
truthiness check `if not user_id` treats the returned 0 as falsy. -/
theorem C9_admin_id_unauthenticated (secret sessionMaxAge now t : Nat)
    (s : Auction.Store) (itemId amount : Int) (uuidArg fresh : String)
    (hage : now - t ≤ sessionMaxAge) :
    Auction.place_bid_endpoint secret sessionMaxAge now
        (some (Auction.create_session_token secret 0 t)) s itemId amount fresh
      = (Auction.Resp.err 401, s)
    ∧ Auction.get_user_bid_endpoint secret sessionMaxAge now
        (some (Auction.create_session_token secret 0 t)) s itemId
      = Auction.Resp.err 404
    ∧ Auction.delete_bid_endpoint secret sessionMaxAge now
        (some (Auction.create_session_token secret 0 t)) s uuidArg
      = (Auction.Resp.err 401, s)
    ∧ Auction.donate_endpoint secret sessionMaxAge now
        (some (Auction.create_session_token secret 0 t)) s amount fresh
      = (Auction.Resp.err 401, s)
    ∧ Auction.get_donation_endpoint secret sessionMaxAge now
        (some (Auction.create_session_token secret 0 t)) s
      = Auction.Resp.err 401 := by
  have hv := Auction.validate_create secret sessionMaxAge t now 0 hage
  refine ⟨?_, ?_, ?_, ?_, ?_⟩
  · unfold Auction.place_bid_endpoint
    simp [hv]
  · unfold Auction.get_user_bid_endpoint
    simp [hv]
  · unfold Auction.delete_bid_endpoint
    simp [hv]
  · unfold Auction.donate_endpoint
    simp [hv]
  · unfold Auction.get_donation_endpoint
    simp [hv]

/-- Witness for C9 at a concrete store, secret and time. -/
theorem C9_admin_id_unauthenticated_witness :
    Auction.place_bid_endpoint 1 604800 5 (some (Auction.create_session_token 1 0 5))
        Auction.sampleStore 1 100 "w"
      = (Auction.Resp.err 401, Auction.sampleStore)
    ∧ Auction.get_donation_endpoint 1 604800 5
        (some (Auction.create_session_token 1 0 5)) Auction.sampleStore
      = Auction.Resp.err 401 := by
  have h := C9_admin_id_unauthenticated 1 604800 5 5 Auction.sampleStore 1 100 "w" "w"
    (by decide)
  exact ⟨h.1, h.2.2.2.2⟩

/-- C10: under the interleaved execution the code actually performs (no
transaction or per-item lock around the read-then-insert of
src/main.py:467-518), the schedule that runs both read phases before either
insert accepts two bids of the same amount 100 on one item, leaving two
stored bids with equal amounts — the sequential run of the same two calls
rejects the second with "not highest".  This contradicts the claimed
property; the claim matches the spec's stated intent, the code has the
race. -/
theorem C10_equal_amount_race :
    ((Auction.runSched
        { store := Auction.sampleStore,
          calls := [(Auction.sampleReq1, Auction.Phase.pending),
                    (Auction.sampleReqEq, Auction.Phase.pending)] }
        [0, 1, 0, 1]).calls.map (fun c => c.2)
      = [Auction.Phase.done true, Auction.Phase.done true])
    ∧ ((Auction.runSched
        { store := Auction.sampleStore,
          calls := [(Auction.sampleReq1, Auction.Phase.pending),
                    (Auction.sampleReqEq, Auction.Phase.pending)] }
        [0, 1, 0, 1]).store.bids.map Auction.Bid.amount = [100, 100])
    ∧ ¬ List.Pairwise (· ≠ ·)
        ((Auction.runSched
          { store := Auction.sampleStore,
            calls := [(Auction.sampleReq1, Auction.Phase.pending),
                      (Auction.sampleReqEq, Auction.Phase.pending)] }
          [0, 1, 0, 1]).store.bids.map Auction.Bid.amount)
    ∧ ((Auction.runTrace Auction.sampleStore
          [Auction.sampleReq1, Auction.sampleReqEq]).map (fun e => e.2.2)
      = [Auction.BidOutcome.accepted, Auction.BidOutcome.notHighest 100]) := by
  refine ⟨by decide, by decide, by decide, by decide⟩
